import Mathlib

/-!
# Multipart/form-data test payload builder: formal model

A shallow embedding of `src/lib.rs` of `actix-web-multipart-test`: the
`TestMultipartBuilder` data model, its add-part operations and the `build`
encoder, all at the byte level (a byte is a `Nat`, a buffer a `List Nat`).
Rust `String`s stay Lean `String`s; wherever the Rust code takes the UTF-8
bytes of a string (`format!(...).as_bytes()`, `Bytes::from(text.to_string())`)
the model applies `strBytes`, an executable UTF-8 encoder.
-/

namespace MultipartTest

/-- UTF-8 encoding of a single character, as a list of byte values.
Matches the UTF-8 bytes Rust strings are made of. -/
def utf8Bytes (c : Char) : List Nat :=
  let n := c.toNat
  if n < 0x80 then [n]
  else if n < 0x800 then
    [0xC0 ||| (n >>> 6), 0x80 ||| (n &&& 0x3F)]
  else if n < 0x10000 then
    [0xE0 ||| (n >>> 12), 0x80 ||| ((n >>> 6) &&& 0x3F), 0x80 ||| (n &&& 0x3F)]
  else
    [0xF0 ||| (n >>> 18), 0x80 ||| ((n >>> 12) &&& 0x3F),
     0x80 ||| ((n >>> 6) &&& 0x3F), 0x80 ||| (n &&& 0x3F)]

/-- The UTF-8 bytes of a string; the model of Rust `str::as_bytes`. -/
def strBytes (s : String) : List Nat :=
  s.data.flatMap utf8Bytes

/-- One part of the multipart payload (struct `Part` in `lib.rs`):
`name`, `content_type` and the optional `filename` are Rust `String`s,
`content` is a raw byte buffer (`Bytes`). -/
structure Part where
  name : String
  content_type : String
  filename : Option String
  content : List Nat
deriving DecidableEq, Repr

/-- The builder (struct `TestMultipartBuilder` in `lib.rs`): a boundary
string and the ordered list of parts. -/
structure TestMultipartBuilder where
  boundary : String
  parts : List Part
deriving DecidableEq, Repr

/-- `TestMultipartBuilder::new` generates `Uuid::new_v4().to_string()` as the
boundary and starts with no parts.  The model takes the generated UUID string
as a parameter (the single point of randomness). -/
def new (uuid : String) : TestMultipartBuilder :=
  { boundary := uuid, parts := [] }

/-- Is `c` a character of the canonical UUID string rendering
(hyphen, decimal digit or lowercase hex letter)? -/
def isUuidChar (c : Char) : Bool :=
  c.toNat = 45 || (48 ≤ c.toNat && c.toNat ≤ 57) || (97 ≤ c.toNat && c.toNat ≤ 102)

/-- The canonical `Uuid::to_string` rendering: 36 characters, hyphens at
positions 8, 13, 18 and 23, lowercase hex digits elsewhere. -/
def isUuidString (s : String) : Bool :=
  s.length == 36 &&
  s.data.all isUuidChar &&
  (decide (s.data.get? 8 = some '-') && decide (s.data.get? 13 = some '-') &&
   decide (s.data.get? 18 = some '-') && decide (s.data.get? 23 = some '-'))

/-- `TestMultipartBuilder::with_part`: push one fully specified part. -/
def with_part (b : TestMultipartBuilder) (name : String) (content_type : String)
    (filename : Option String) (content : List Nat) : TestMultipartBuilder :=
  { b with parts := b.parts ++ [⟨name, content_type, filename, content⟩] }

/-- `TestMultipartBuilder::with_text`: a `text/plain` part, no filename,
content the UTF-8 bytes of `text`. -/
def with_text (b : TestMultipartBuilder) (name : String) (text : String) :
    TestMultipartBuilder :=
  with_part b name "text/plain" none (strBytes text)

/-- `TestMultipartBuilder::with_bytes`: a part with explicit filename,
caller-supplied content type and raw content bytes. -/
def with_bytes (b : TestMultipartBuilder) (name : String) (filename : String)
    (content_type : String) (content : List Nat) : TestMultipartBuilder :=
  with_part b name content_type (some filename) content

/-- Outcome of a Rust call that may panic: either a value or a panic. -/
inductive PanicOr (α : Type) where
  | ok : α → PanicOr α
  | panicked : String → PanicOr α
deriving DecidableEq, Repr

/-- `TestMultipartBuilder::with_json`.  The Rust code runs
`serde_json::to_vec(json_data).unwrap()`; the serializer is external, so its
outcome is a parameter: `Except msg bytes` stands for the
`Result<Vec<u8>, serde_json::Error>` that `to_vec` returned.  On `Ok` the
bytes become an `application/json` part with no filename; on `Err` the
`unwrap()` panics. -/
def with_json (b : TestMultipartBuilder) (name : String)
    (serialized : Except String (List Nat)) : PanicOr TestMultipartBuilder :=
  match serialized with
  | Except.ok content => PanicOr.ok (with_part b name "application/json" none content)
  | Except.error e => PanicOr.panicked e

/-- The bytes `build` appends for one part: delimiter line,
`Content-Disposition` line (with or without `filename`), `Content-Type` line,
blank line, raw content, trailing CRLF — the body of the `for part in
self.parts` loop in `lib.rs`. -/
def partBytes (boundary : String) (part : Part) : List Nat :=
  strBytes ("--" ++ boundary ++ "\r\n")
  ++ strBytes (match part.filename with
      | some filename =>
        "Content-Disposition: form-data; name=\"" ++ part.name ++
          "\"; filename=\"" ++ filename ++ "\"\r\n"
      | none =>
        "Content-Disposition: form-data; name=\"" ++ part.name ++ "\"\r\n")
  ++ strBytes ("Content-Type: " ++ part.content_type ++ "\r\n\r\n")
  ++ part.content
  ++ strBytes "\r\n"

/-- The full body `build` assembles: every part in order, then the closing
delimiter `--boundary--\r\n`. -/
def bodyBytes (b : TestMultipartBuilder) : List Nat :=
  (b.parts.foldl (fun acc part => acc ++ partBytes b.boundary part) [])
  ++ strBytes ("--" ++ b.boundary ++ "--\r\n")

/-- A byte the `http` crate accepts in a `HeaderValue`
(`b >= 32 && b != 127 || b == b'\t'`). -/
def isValidHeaderByte (b : Nat) : Bool :=
  (32 ≤ b && b ≠ 127) || b == 9

/-- Model of `HeaderValue::from_str`: succeeds iff every byte of the string
is a valid header byte. -/
def headerValueFromStr (s : String) : Option String :=
  if (strBytes s).all isValidHeaderByte then some s else none

/-- `TestMultipartBuilder::build`: the body bytes plus the
`(CONTENT_TYPE, HeaderValue)` pair.  The Rust code unwraps
`HeaderValue::from_str`; the panic on an invalid header string is modelled as
`none`. -/
def build (b : TestMultipartBuilder) :
    Option ((String × String) × List Nat) :=
  match headerValueFromStr ("multipart/form-data; boundary=" ++ b.boundary) with
  | some v => some (("content-type", v), bodyBytes b)
  | none => none

/-! ## Reference decoder

Modelled from the spec: the repository contains no decode direction; the
round-trip property of §8 of the spec speaks of "decoding with an
RFC-7578-conformant multipart parser".  The definitions below are that
reference decoder, written from the wire format of §6 of the spec: split the
body on the boundary delimiters, parse each part's `Content-Disposition`
(quoted `name`, optional quoted `filename`) and `Content-Type` headers, and
return the raw content bytes between the header blank line and the next
delimiter. -/

/-- A decoded part, all fields at the byte level. -/
structure DecodedPart where
  name : List Nat
  content_type : List Nat
  filename : Option (List Nat)
  content : List Nat
deriving DecidableEq, Repr

/-- The byte-level view of an encoded `Part`: what a conformant decoder is
expected to recover. -/
def partToWire (p : Part) : DecodedPart :=
  ⟨strBytes p.name, strBytes p.content_type, p.filename.map strBytes, p.content⟩

/-- Consume the exact byte sequence `pat` from the front of `input`. -/
def expectBytes (pat : List Nat) (input : List Nat) : Option (List Nat) :=
  if pat.isPrefixOf input then some (input.drop pat.length) else none

/-- Split `input` at the first occurrence of the byte `b`: the bytes before
it and the bytes after it.  Fails when `b` does not occur. -/
def takeUntilByte (b : Nat) : List Nat → Option (List Nat × List Nat)
  | [] => none
  | x :: xs =>
    if x = b then some ([], xs)
    else
      match takeUntilByte b xs with
      | some (pre, post) => some (x :: pre, post)
      | none => none

/-- Split `input` at the first occurrence of the byte sequence `pat`:
the bytes before it and the bytes after it.  Fails when `pat` does not
occur. -/
def splitOnSeq (pat : List Nat) : List Nat → Option (List Nat × List Nat)
  | [] => none
  | x :: xs =>
    if pat.isPrefixOf (x :: xs) then some ([], (x :: xs).drop pat.length)
    else
      match splitOnSeq pat xs with
      | some (pre, post) => some (x :: pre, post)
      | none => none

/-- Parse the tail of a `Content-Disposition` line after the closing quote of
the name: either the line ends (`\r\n`, no filename) or a
`; filename="..."` attribute follows. -/
def parseFilenameTail (input : List Nat) : Option (Option (List Nat) × List Nat) :=
  if [13, 10].isPrefixOf input then some (none, input.drop 2)
  else
    (expectBytes (strBytes "; filename=\"") input).bind (fun r =>
    (takeUntilByte 34 r).bind (fun p =>
    (expectBytes [13, 10] p.2).map (fun r3 => (some p.1, r3))))

/-- One loop of the reference decoder.  `input` is the byte stream right
after a consumed `--boundary`; the loop either sees the closing `--\r\n`, or
a part: CRLF, `Content-Disposition` with quoted name and optional quoted
filename, `Content-Type` up to CRLF, the blank line, then content up to the
next `\r\n--boundary`, and recurses. -/
def decodeLoop : Nat → List Nat → List Nat → Option (List DecodedPart)
  | 0, _, _ => none
  | fuel + 1, boundary, input =>
    if input = [45, 45, 13, 10] then some []
    else
      (expectBytes [13, 10] input).bind (fun r1 =>
      (expectBytes (strBytes "Content-Disposition: form-data; name=\"") r1).bind (fun r2 =>
      (takeUntilByte 34 r2).bind (fun np =>
      (parseFilenameTail np.2).bind (fun fp =>
      (expectBytes (strBytes "Content-Type: ") fp.2).bind (fun r5 =>
      (splitOnSeq [13, 10] r5).bind (fun cp =>
      (expectBytes [13, 10] cp.2).bind (fun r7 =>
      (splitOnSeq ([13, 10, 45, 45] ++ boundary) r7).bind (fun bp =>
      (decodeLoop fuel boundary bp.2).map (fun rest =>
        ⟨np.1, cp.1, fp.1, bp.1⟩ :: rest)))))))))

/-- The reference decoder: given the boundary bytes and the body bytes,
recover the ordered list of parts. -/
def decode (boundary : List Nat) (body : List Nat) : Option (List DecodedPart) :=
  (expectBytes ([45, 45] ++ boundary) body).bind
    (fun rest => decodeLoop (body.length + 1) boundary rest)

/-- `pat` occurs in `content ++ pat` at no position before `content.length`:
the decoder's split at the first occurrence of the delimiter `pat` lands
exactly at the end of `content`. -/
def noEarlyOcc (pat content : List Nat) : Bool :=
  (List.range content.length).all
    (fun i => !(pat.isPrefixOf ((content ++ pat).drop i)))

/-- The side conditions under which one encoded part decodes back to itself:
no double quote in the name or filename bytes, no early CRLF inside the
content-type bytes, and no early occurrence of the delimiter sequence
`\r\n--boundary` inside the content. -/
def roundTripSafePart (boundary : String) (p : Part) : Bool :=
  !((strBytes p.name).contains 34) &&
  (match p.filename with
   | some f => !((strBytes f).contains 34)
   | none => true) &&
  noEarlyOcc [13, 10] (strBytes p.content_type) &&
  noEarlyOcc ([13, 10, 45, 45] ++ strBytes boundary) p.content

/-- All parts of the builder satisfy `roundTripSafePart`. -/
def roundTripSafe (b : TestMultipartBuilder) : Bool :=
  b.parts.all (roundTripSafePart b.boundary)

/-- The bytes that follow the closing quote of the name in a
`Content-Disposition` line: either the optional filename attribute followed
by CRLF, or just CRLF. -/
def fnTailBytes : Option String → List Nat
  | some f => strBytes "; filename=\"" ++ (strBytes f ++ [34, 13, 10])
  | none => [13, 10]

/-- The bytes of the encoded body that follow a consumed `--boundary`:
either the closing `--\r\n`, or one part (CRLF, headers, blank line, content,
CRLF) followed by the next `--boundary` and the rest. -/
def segBytes (bd : String) : List Part → List Nat
  | [] => [45, 45, 13, 10]
  | p :: rest =>
    [13, 10] ++
    (strBytes "Content-Disposition: form-data; name=\"" ++
    (strBytes p.name ++ (34 ::
    (fnTailBytes p.filename ++
    (strBytes "Content-Type: " ++
    (strBytes p.content_type ++ ([13, 10] ++ ([13, 10] ++
    (p.content ++ (([13, 10, 45, 45] ++ strBytes bd) ++ segBytes bd rest))))))))))

/-- One add-* call issued against the builder: the three public convenience
operations, a JSON call carrying the bytes its successful serialization
produced, and the generic `with_part`. -/
inductive AddOp where
  | text : String → String → AddOp
  | bytes : String → String → String → List Nat → AddOp
  | json : String → List Nat → AddOp
  | part : String → String → Option String → List Nat → AddOp
deriving Repr

/-- Apply one add-* call to a builder. -/
def applyOp (b : TestMultipartBuilder) : AddOp → TestMultipartBuilder
  | AddOp.text name t => with_text b name t
  | AddOp.bytes name fname ct c => with_bytes b name fname ct c
  | AddOp.json name c =>
    match with_json b name (Except.ok c) with
    | PanicOr.ok b' => b'
    | PanicOr.panicked _ => b
  | AddOp.part name ct fn c => with_part b name ct fn c

/-- The part one add-* call appends. -/
def opPart : AddOp → Part
  | AddOp.text name t => ⟨name, "text/plain", none, strBytes t⟩
  | AddOp.bytes name fname ct c => ⟨name, ct, some fname, c⟩
  | AddOp.json name c => ⟨name, "application/json", none, c⟩
  | AddOp.part name ct fn c => ⟨name, ct, fn, c⟩

/-- A canonical UUID string, used as a concrete boundary in witnesses. -/
def sampleUuid : String := "123e4567-e89b-12d3-a456-426614174000"

/-- A small well-behaved concrete part. -/
def samplePart : Part := ⟨"x", "text/plain", none, [104, 105]⟩

/-- A concrete part with hostile fields: a quote in the name and the
filename, CRLF in the content type, delimiter-like bytes in the content. -/
def samplePartNasty : Part :=
  ⟨"we\"ird", "ct\r\n", some "f\"n", [0, 13, 10, 45, 45]⟩

/-! ## Helper lemmas -/

theorem strBytes_append (s t : String) :
    strBytes (s ++ t) = strBytes s ++ strBytes t := by
  have h : (s ++ t).data = s.data ++ t.data := rfl
  simp [strBytes, h]

theorem expectBytes_append (pat rest : List Nat) :
    expectBytes pat (pat ++ rest) = some rest := by
  have hpre : pat.isPrefixOf (pat ++ rest) = true := by
    simp [List.isPrefixOf_iff_prefix]
  simp [expectBytes, hpre]

theorem isPrefixOf_append_of_le (pat xs ys : List Nat)
    (h : pat.length ≤ xs.length) :
    pat.isPrefixOf (xs ++ ys) = pat.isPrefixOf xs := by
  rw [Bool.eq_iff_iff]
  simp only [List.isPrefixOf_iff_prefix]
  constructor <;> intro hp
  · rw [List.prefix_iff_eq_take] at hp
    rw [List.take_append_of_le_length h] at hp
    rw [List.prefix_iff_eq_take]
    exact hp
  · exact hp.trans (List.prefix_append xs ys)

theorem takeUntilByte_append (b : Nat) (pre rest : List Nat)
    (h : pre.contains b = false) :
    takeUntilByte b (pre ++ b :: rest) = some (pre, rest) := by
  induction pre with
  | nil => simp [takeUntilByte]
  | cons x xs ih =>
    rw [List.contains_cons, Bool.or_eq_false_iff, beq_eq_false_iff_ne] at h
    have hx : ¬ (x = b) := fun hxb => h.1 hxb.symm
    simp [takeUntilByte, hx, ih h.2]

theorem noEarlyOcc_cons (pat : List Nat) (c : Nat) (cs : List Nat)
    (h : noEarlyOcc pat (c :: cs) = true) : noEarlyOcc pat cs = true := by
  simp only [noEarlyOcc, List.all_eq_true, List.mem_range] at h ⊢
  intro i hi
  have := h (i + 1) (by simpa using Nat.succ_lt_succ hi)
  simpa using this

theorem noEarlyOcc_head (pat : List Nat) (c : Nat) (cs : List Nat)
    (h : noEarlyOcc pat (c :: cs) = true) :
    pat.isPrefixOf ((c :: cs) ++ pat) = false := by
  simp only [noEarlyOcc, List.all_eq_true, List.mem_range] at h
  have := h 0 (by simp)
  simpa using this

theorem splitOnSeq_clean (pat content tail : List Nat) (hne : pat ≠ [])
    (h : noEarlyOcc pat content = true) :
    splitOnSeq pat (content ++ pat ++ tail) = some (content, tail) := by
  induction content with
  | nil =>
    match pat, hne with
    | p :: pr, _ =>
      have hpre : (p :: pr).isPrefixOf ((p :: pr) ++ tail) = true := by
        simp [List.isPrefixOf_iff_prefix]
      simp [splitOnSeq, hpre, List.drop_left]
  | cons c cs ih =>
    have hlen : pat.length ≤ ((c :: cs) ++ pat).length := by
      simp [List.length_append]
      omega
    have hfalse : pat.isPrefixOf (((c :: cs) ++ pat) ++ tail) = false := by
      rw [isPrefixOf_append_of_le pat ((c :: cs) ++ pat) tail hlen]
      exact noEarlyOcc_head pat c cs h
    have hf2 : pat.isPrefixOf (c :: (cs ++ (pat ++ tail))) = false := by
      simpa [List.append_assoc] using hfalse
    have hf3 : ¬ (pat <+: c :: (cs ++ (pat ++ tail))) := by
      rw [← List.isPrefixOf_iff_prefix, hf2]
      exact Bool.false_ne_true
    have hrec2 : splitOnSeq pat (cs ++ (pat ++ tail)) = some (cs, tail) := by
      simpa [List.append_assoc] using ih (noEarlyOcc_cons pat c cs h)
    show splitOnSeq pat (c :: ((cs ++ pat) ++ tail)) = some (c :: cs, tail)
    simp [splitOnSeq, hf3, hrec2]

theorem parseFilenameTail_none (rest : List Nat) :
    parseFilenameTail ([13, 10] ++ rest) = some (none, rest) := by
  have hpre : [13, 10].isPrefixOf ([13, 10] ++ rest) = true := by
    simp [List.isPrefixOf_iff_prefix]
  simp [parseFilenameTail, hpre]

theorem parseFilenameTail_some (fB rest : List Nat)
    (h : fB.contains 34 = false) :
    parseFilenameTail (strBytes "; filename=\"" ++ (fB ++ ([34, 13, 10] ++ rest)))
      = some (some fB, rest) := by
  have hkey : strBytes "; filename=\"" =
      [59, 32, 102, 105, 108, 101, 110, 97, 109, 101, 61, 34] := by decide
  rw [parseFilenameTail, hkey]
  have hpre : [13, 10].isPrefixOf
      ([59, 32, 102, 105, 108, 101, 110, 97, 109, 101, 61, 34] ++ (fB ++ ([34, 13, 10] ++ rest))) = false := by
    simp [List.isPrefixOf]
  rw [if_neg (by simp [hpre])]
  have h34 : fB ++ ([34, 13, 10] ++ rest) = fB ++ 34 :: ([13, 10] ++ rest) := by simp
  simp only [h34, expectBytes_append, takeUntilByte_append 34 fB ([13, 10] ++ rest) h,
    Option.some_bind, Option.map_some']

theorem splitOnSeq_clean' (pat content tail : List Nat) (hne : pat ≠ [])
    (h : noEarlyOcc pat content = true) :
    splitOnSeq pat (content ++ (pat ++ tail)) = some (content, tail) := by
  rw [← List.append_assoc]
  exact splitOnSeq_clean pat content tail hne h

theorem foldl_append_flatMap (f : Part → List Nat) :
    ∀ (l : List Part) (init : List Nat),
      l.foldl (fun acc p => acc ++ f p) init = init ++ l.flatMap f
  | [], init => by simp
  | p :: rest, init => by
    simp only [List.foldl_cons, List.flatMap_cons]
    rw [foldl_append_flatMap f rest (init ++ f p)]
    simp [List.append_assoc]

theorem bodyBytes_eq_seg (b : TestMultipartBuilder) :
    bodyBytes b = ([45, 45] ++ strBytes b.boundary) ++ segBytes b.boundary b.parts := by
  have hchain : ∀ ps : List Part,
      (ps.flatMap (partBytes b.boundary)) ++ strBytes ("--" ++ b.boundary ++ "--\r\n")
        = ([45, 45] ++ strBytes b.boundary) ++ segBytes b.boundary ps := by
    intro ps
    induction ps with
    | nil =>
      have h7 : strBytes "--\r\n" = [45, 45, 13, 10] := by decide
      have h2 : strBytes "--" = [45, 45] := by decide
      simp [segBytes, strBytes_append, h2, h7]
    | cons p rest ih =>
      have h1 : strBytes "\r\n" = [13, 10] := by decide
      have h2 : strBytes "--" = [45, 45] := by decide
      have h3 : strBytes "\"\r\n" = [34, 13, 10] := by decide
      have h4 : strBytes "\"; filename=\"" =
          [34, 59, 32, 102, 105, 108, 101, 110, 97, 109, 101, 61, 34] := by decide
      have h5 : strBytes "; filename=\"" =
          [59, 32, 102, 105, 108, 101, 110, 97, 109, 101, 61, 34] := by decide
      have h6 : strBytes "\r\n\r\n" = [13, 10, 13, 10] := by decide
      cases hf : p.filename with
      | none =>
        simp only [List.flatMap_cons, List.append_assoc] at ih ⊢
        rw [ih]
        simp [partBytes, segBytes, fnTailBytes, hf, strBytes_append, h1, h2, h3, h6,
          List.append_assoc]
      | some f =>
        simp only [List.flatMap_cons, List.append_assoc] at ih ⊢
        rw [ih]
        simp [partBytes, segBytes, fnTailBytes, hf, strBytes_append, h1, h2, h3, h4, h5, h6,
          List.append_assoc]
  rw [bodyBytes, foldl_append_flatMap (partBytes b.boundary) b.parts []]
  simpa using hchain b.parts

theorem length_le_segBytes (bd : String) :
    ∀ ps : List Part, ps.length ≤ (segBytes bd ps).length
  | [] => by simp [segBytes]
  | p :: rest => by
    have ih := length_le_segBytes bd rest
    simp only [segBytes, List.length_cons, List.length_append]
    omega

theorem expectBytes_crlf (rest : List Nat) :
    expectBytes [13, 10] (13 :: (10 :: rest)) = some rest :=
  expectBytes_append [13, 10] rest

theorem parseFilenameTail_none' (rest : List Nat) :
    parseFilenameTail (13 :: (10 :: rest)) = some (none, rest) :=
  parseFilenameTail_none rest

theorem parseFilenameTail_some' (fB rest : List Nat)
    (h : fB.contains 34 = false) :
    parseFilenameTail (strBytes "; filename=\"" ++ (fB ++ (34 :: (13 :: (10 :: rest)))))
      = some (some fB, rest) :=
  parseFilenameTail_some fB rest h

theorem splitOnSeq_crlf (content tail : List Nat)
    (h : noEarlyOcc [13, 10] content = true) :
    splitOnSeq [13, 10] (content ++ (13 :: (10 :: tail))) = some (content, tail) :=
  splitOnSeq_clean' [13, 10] content tail (by simp) h

theorem splitOnSeq_delim (bdB content tail : List Nat)
    (h : noEarlyOcc (13 :: (10 :: (45 :: (45 :: bdB)))) content = true) :
    splitOnSeq (13 :: (10 :: (45 :: (45 :: bdB))))
      (content ++ (13 :: (10 :: (45 :: (45 :: (bdB ++ tail)))))) = some (content, tail) :=
  splitOnSeq_clean' (13 :: (10 :: (45 :: (45 :: bdB)))) content tail (by simp) h

theorem decodeLoop_seg (bd : String) (ps : List Part) :
    ∀ fuel : Nat, ps.length < fuel →
      ps.all (roundTripSafePart bd) = true →
      decodeLoop fuel (strBytes bd) (segBytes bd ps) = some (ps.map partToWire) := by
  induction ps with
  | nil =>
    intro fuel hfuel _
    cases fuel with
    | zero => omega
    | succ f => simp [decodeLoop, segBytes]
  | cons p rest ih =>
    intro fuel hfuel hsafe
    cases fuel with
    | zero => omega
    | succ f =>
      rw [List.all_cons, Bool.and_eq_true] at hsafe
      obtain ⟨hp, hrest⟩ := hsafe
      have hrec := ih f (by simp at hfuel ⊢; omega) hrest
      cases hfn : p.filename with
      | none =>
        rw [roundTripSafePart, hfn] at hp
        simp only [Bool.and_eq_true, Bool.not_eq_true'] at hp
        obtain ⟨⟨⟨hname, _⟩, hct⟩, hcontent⟩ := hp
        have hcontent' : noEarlyOcc (13 :: (10 :: (45 :: (45 :: strBytes bd)))) p.content
            = true := hcontent
        simp only [decodeLoop, segBytes, hfn, fnTailBytes, List.cons_append,
          List.nil_append, List.append_assoc]
        split
        next htrue => exact absurd htrue (by simp)
        next hfalse =>
          simp only [expectBytes_append, expectBytes_crlf, Option.some_bind,
            takeUntilByte_append, hname, parseFilenameTail_none', splitOnSeq_crlf, hct,
            splitOnSeq_delim, hcontent', hrec, Option.map_some', List.map_cons,
            partToWire, hfn, Option.map_none']
      | some fname =>
        rw [roundTripSafePart, hfn] at hp
        simp only [Bool.and_eq_true, Bool.not_eq_true'] at hp
        obtain ⟨⟨⟨hname, hfile⟩, hct⟩, hcontent⟩ := hp
        have hcontent' : noEarlyOcc (13 :: (10 :: (45 :: (45 :: strBytes bd)))) p.content
            = true := hcontent
        simp only [decodeLoop, segBytes, hfn, fnTailBytes, List.cons_append,
          List.nil_append, List.append_assoc]
        split
        next htrue => exact absurd htrue (by simp)
        next hfalse =>
          simp only [expectBytes_append, expectBytes_crlf, Option.some_bind,
            takeUntilByte_append, hname, hfile, parseFilenameTail_some', splitOnSeq_crlf, hct,
            splitOnSeq_delim, hcontent', hrec, Option.map_some', List.map_cons,
            partToWire, hfn]

/-- Round trip under the safety side conditions: decoding the built body with
the reference decoder recovers exactly the parts that were added, in order,
with byte-identical content. -/
theorem decode_bodyBytes (b : TestMultipartBuilder)
    (hsafe : roundTripSafe b = true) :
    decode (strBytes b.boundary) (bodyBytes b) = some (b.parts.map partToWire) := by
  rw [decode, bodyBytes_eq_seg, expectBytes_append, Option.some_bind]
  apply decodeLoop_seg b.boundary b.parts _ _ hsafe
  have h1 := length_le_segBytes b.boundary b.parts
  simp only [List.length_append]
  omega

theorem uuidChar_byte (c : Char) (h : isUuidChar c = true) :
    utf8Bytes c = [c.toNat] ∧ isValidHeaderByte c.toNat = true := by
  rw [isUuidChar] at h
  simp only [Bool.or_eq_true, Bool.and_eq_true, decide_eq_true_eq] at h
  have hlt : c.toNat < 0x80 := by omega
  constructor
  · rw [utf8Bytes]
    simp [hlt]
  · rw [isValidHeaderByte]
    simp only [Bool.or_eq_true, Bool.and_eq_true, decide_eq_true_eq, beq_iff_eq]
    left
    omega

theorem strBytes_valid_of_uuidChars (s : String)
    (h : s.data.all isUuidChar = true) :
    (strBytes s).all isValidHeaderByte = true := by
  rw [strBytes]
  simp only [List.all_eq_true, List.mem_flatMap] at h ⊢
  rintro x ⟨c, hc, hx⟩
  obtain ⟨heq, hvalid⟩ := uuidChar_byte c (h c hc)
  rw [heq] at hx
  simp only [List.mem_singleton] at hx
  subst hx
  exact hvalid

theorem isUuidString_chars (s : String) (h : isUuidString s = true) :
    s.data.all isUuidChar = true := by
  rw [isUuidString] at h
  simp only [Bool.and_eq_true] at h
  exact h.1.2

theorem headerValueFromStr_uuid (s : String) (h : isUuidString s = true) :
    headerValueFromStr ("multipart/form-data; boundary=" ++ s)
      = some ("multipart/form-data; boundary=" ++ s) := by
  rw [headerValueFromStr, if_pos]
  rw [strBytes_append, List.all_append, Bool.and_eq_true]
  exact ⟨by decide, strBytes_valid_of_uuidChars s (isUuidString_chars s h)⟩

theorem build_eq_of_uuid (b : TestMultipartBuilder)
    (h : isUuidString b.boundary = true) :
    build b = some (("content-type", "multipart/form-data; boundary=" ++ b.boundary),
      bodyBytes b) := by
  rw [build, headerValueFromStr_uuid b.boundary h]

theorem applyOp_eq (b : TestMultipartBuilder) (op : AddOp) :
    applyOp b op = ⟨b.boundary, b.parts ++ [opPart op]⟩ := by
  cases op <;> rfl

theorem foldl_applyOp (ops : List AddOp) :
    ∀ b : TestMultipartBuilder,
      ops.foldl applyOp b = ⟨b.boundary, b.parts ++ ops.map opPart⟩ := by
  induction ops with
  | nil => intro b; simp
  | cons op rest ih =>
    intro b
    rw [List.foldl_cons, applyOp_eq, ih]
    simp

theorem partBytes_delimiter (bd : String) (p : Part) :
    (strBytes ("--" ++ bd ++ "\r\n")).isPrefixOf (partBytes bd p) = true := by
  rw [partBytes]
  simp only [List.append_assoc]
  simp [List.isPrefixOf_iff_prefix]

/-! ## Claims -/

set_option maxRecDepth 40000 in
/-- C1: building with `add-text("field1", "hello")` followed by
`add-bytes("file1", "a.txt", "text/plain", b"data")` against boundary `B1`
returns exactly the specified body bytes together with the content-type
header value `multipart/form-data; boundary=B1`. -/
theorem concrete_scenario_C1 :
    build (with_bytes (with_text ⟨"B1", []⟩ "field1" "hello")
        "file1" "a.txt" "text/plain" (strBytes "data"))
      = some (("content-type", "multipart/form-data; boundary=B1"),
          strBytes ("--B1\r\nContent-Disposition: form-data; name=\"field1\"\r\nContent-Type: text/plain\r\n\r\nhello\r\n--B1\r\nContent-Disposition: form-data; name=\"file1\"; filename=\"a.txt\"\r\nContent-Type: text/plain\r\n\r\ndata\r\n--B1--\r\n")) := by
  decide

/-- C2 counterexample: when the external serialization fails, `with_json`
does not propagate an error value — the `unwrap()` panics, here at a
concrete failing serialization. -/
theorem with_json_panics_C2 :
    with_json ⟨"B1", []⟩ "field" (Except.error "serialization failed")
      = PanicOr.panicked "serialization failed" := rfl

/-- C2 (amended): on a failing serialization `with_json` panics via
`unwrap` — it returns neither an error value nor a builder, so no empty or
malformed part is appended and no partial buffer escapes; on success it
appends exactly one `application/json` part with no filename. -/
theorem with_json_behavior_C2 (b : TestMultipartBuilder) (name e : String)
    (c : List Nat) :
    with_json b name (Except.error e) = PanicOr.panicked e ∧
    with_json b name (Except.ok c)
      = PanicOr.ok ⟨b.boundary, b.parts ++ [⟨name, "application/json", none, c⟩]⟩ :=
  ⟨rfl, rfl⟩

set_option maxRecDepth 40000 in
/-- C3 counterexample: a part whose content contains the delimiter bytes
`\r\n--B` breaks the round trip — the reference decoder does not recover the
original single part from the encoded body. -/
theorem round_trip_fails_C3 :
    decode (strBytes "B")
        (bodyBytes (with_part ⟨"B", []⟩ "a" "text/plain" none (strBytes "\r\n--B")))
      ≠ some ((with_part ⟨"B", []⟩ "a" "text/plain" none
          (strBytes "\r\n--B")).parts.map partToWire) := by
  decide

/-- C3 (amended): encoding with `build` then decoding with the reference
RFC-7578 decoder returns exactly the ordered list of parts that were added,
with byte-identical content, provided no part name or filename contains a
double-quote byte, no content type contains an early CRLF, and no content
contains an early occurrence of the delimiter sequence `\r\n--boundary`. -/
theorem round_trip_C3 (b : TestMultipartBuilder) (hdr : String × String)
    (body : List Nat) (hbuild : build b = some (hdr, body))
    (hsafe : roundTripSafe b = true) :
    decode (strBytes b.boundary) body = some (b.parts.map partToWire) := by
  have hbody : body = bodyBytes b := by
    rw [build] at hbuild
    cases hv : headerValueFromStr ("multipart/form-data; boundary=" ++ b.boundary) with
    | none => rw [hv] at hbuild; cases hbuild
    | some v =>
      rw [hv] at hbuild
      simp only [Option.some.injEq, Prod.mk.injEq] at hbuild
      exact hbuild.2.symm
  rw [hbody]
  exact decode_bodyBytes b hsafe

set_option maxRecDepth 40000 in
/-- C3 witness: the round trip at a concrete one-part builder. -/
theorem round_trip_witness_C3 :
    decode (strBytes "B1")
        (strBytes "--B1\r\nContent-Disposition: form-data; name=\"a\"\r\nContent-Type: text/plain\r\n\r\nx\r\n--B1--\r\n")
      = some [⟨strBytes "a", strBytes "text/plain", none, strBytes "x"⟩] :=
  round_trip_C3 (with_text ⟨"B1", []⟩ "a" "x")
    ("content-type", "multipart/form-data; boundary=B1")
    (strBytes "--B1\r\nContent-Disposition: form-data; name=\"a\"\r\nContent-Type: text/plain\r\n\r\nx\r\n--B1--\r\n")
    (by decide) (by decide)

/-- C4: for every builder (whose boundary, coming from `new`, is a UUID
rendering) holding zero parts, `build` returns exactly the closing delimiter
`--boundary--\r\n` as the body and the multipart content-type header. -/
theorem empty_build_C4 (b : TestMultipartBuilder)
    (hu : isUuidString b.boundary = true) (hp : b.parts = []) :
    build b = some (("content-type", "multipart/form-data; boundary=" ++ b.boundary),
      strBytes ("--" ++ b.boundary ++ "--\r\n")) := by
  rw [build_eq_of_uuid b hu, bodyBytes, hp]
  simp

set_option maxRecDepth 40000 in
/-- C4 witness: the empty build at a concrete UUID boundary. -/
theorem empty_build_witness_C4 :
    build ⟨sampleUuid, []⟩
      = some (("content-type", "multipart/form-data; boundary=" ++ sampleUuid),
        strBytes ("--" ++ sampleUuid ++ "--\r\n")) :=
  empty_build_C4 ⟨sampleUuid, []⟩ (by decide) rfl

/-- C5: the content-type value is `multipart/form-data; boundary=` followed
by the builder's boundary (so the bytes after `boundary=` are byte-identical
to it), the body is made of part blocks each starting with the delimiter
line `--boundary\r\n` built from that same boundary and ends with the
closing delimiter built from it, and no add operation changes the
boundary. -/
theorem boundary_consistency_C5 (b : TestMultipartBuilder) (p : Part)
    (name ct : String) (fn : Option String) (c : List Nat)
    (hu : isUuidString b.boundary = true) :
    build b = some (("content-type", "multipart/form-data; boundary=" ++ b.boundary),
        b.parts.flatMap (partBytes b.boundary) ++ strBytes ("--" ++ b.boundary ++ "--\r\n"))
    ∧ (strBytes ("multipart/form-data; boundary=" ++ b.boundary)).drop
        (strBytes "multipart/form-data; boundary=").length = strBytes b.boundary
    ∧ (strBytes ("--" ++ b.boundary ++ "\r\n")).isPrefixOf (partBytes b.boundary p) = true
    ∧ (with_part b name ct fn c).boundary = b.boundary := by
  refine ⟨?_, ?_, partBytes_delimiter b.boundary p, rfl⟩
  · rw [build_eq_of_uuid b hu, bodyBytes,
      foldl_append_flatMap (partBytes b.boundary) b.parts []]
    simp
  · rw [strBytes_append, List.drop_left]

set_option maxRecDepth 40000 in
/-- C5 witness: boundary consistency at a concrete builder. -/
theorem boundary_consistency_witness_C5 :
    build ⟨sampleUuid, [samplePart]⟩
      = some (("content-type", "multipart/form-data; boundary=" ++ sampleUuid),
        [samplePart].flatMap (partBytes sampleUuid)
          ++ strBytes ("--" ++ sampleUuid ++ "--\r\n"))
    ∧ (strBytes ("multipart/form-data; boundary=" ++ sampleUuid)).drop
        (strBytes "multipart/form-data; boundary=").length = strBytes sampleUuid
    ∧ (strBytes ("--" ++ sampleUuid ++ "\r\n")).isPrefixOf
        (partBytes sampleUuid samplePart) = true
    ∧ (with_part ⟨sampleUuid, [samplePart]⟩ "n" "text/plain" none []).boundary
        = sampleUuid :=
  boundary_consistency_C5 ⟨sampleUuid, [samplePart]⟩ samplePart "n" "text/plain"
    none [] (by decide)

/-- C6: parts appear in the built body in exactly the order the add-* calls
were issued, whatever the mix of kinds: after any sequence of calls the part
list is the per-call parts in call order, the i-th part is the i-th call's
part, and the body is the concatenation of the per-part blocks in that
order followed by the closing delimiter. -/
theorem order_preservation_C6 (bd : String) (ops : List AddOp) (i : Nat) :
    (ops.foldl applyOp (new bd)).parts = ops.map opPart
    ∧ (ops.foldl applyOp (new bd)).parts.get? i = (ops.map opPart).get? i
    ∧ bodyBytes (ops.foldl applyOp (new bd))
      = (ops.map opPart).flatMap (partBytes bd) ++ strBytes ("--" ++ bd ++ "--\r\n") := by
  have h := foldl_applyOp ops (new bd)
  refine ⟨?_, ?_, ?_⟩
  · rw [h]; simp [new]
  · rw [h]; simp [new]
  · rw [h, bodyBytes, foldl_append_flatMap]; simp [new]

/-- C7: `with_text` appends exactly one part with content type `text/plain`,
no filename, and content the UTF-8 bytes of the text, for every name and
every text; being a total function, it never fails. -/
theorem with_text_C7 (b : TestMultipartBuilder) (name text : String) :
    with_text b name text
      = ⟨b.boundary, b.parts ++ [⟨name, "text/plain", none, strBytes text⟩]⟩ := rfl

/-- C8: every add operation leaves the boundary unchanged and extends the
part list by exactly one part at the end, leaving previous parts intact
(`with_json` shown on a successful serialization; on failure it panics and
returns no builder at all). -/
theorem frame_effect_C8 (b : TestMultipartBuilder) (name ct fname text : String)
    (fn : Option String) (c bs : List Nat) :
    with_part b name ct fn c = ⟨b.boundary, b.parts ++ [⟨name, ct, fn, c⟩]⟩
    ∧ with_text b name text
      = ⟨b.boundary, b.parts ++ [⟨name, "text/plain", none, strBytes text⟩]⟩
    ∧ with_bytes b name fname ct c
      = ⟨b.boundary, b.parts ++ [⟨name, ct, some fname, c⟩]⟩
    ∧ with_json b name (Except.ok bs)
      = PanicOr.ok ⟨b.boundary, b.parts ++ [⟨name, "application/json", none, bs⟩]⟩ :=
  ⟨rfl, rfl, rfl, rfl⟩

/-- C9: `build` is deterministic — two builders with the same boundary and
the same part sequence produce identical output. -/
theorem build_deterministic_C9 (b1 b2 : TestMultipartBuilder)
    (hb : b1.boundary = b2.boundary) (hp : b1.parts = b2.parts) :
    build b1 = build b2 := by
  have h : b1 = b2 := by
    cases b1; cases b2; simp_all
  rw [h]

/-- C9 witness: two equal-content builders assembled through different call
paths build identically. -/
theorem build_deterministic_witness_C9 :
    build (with_text ⟨"B1", []⟩ "a" "x")
      = build (with_part ⟨"B1", []⟩ "a" "text/plain" none (strBytes "x")) :=
  build_deterministic_C9 _ _ rfl rfl

/-- C10: for every builder whose boundary is a canonical UUID rendering (as
produced by `new`), the `HeaderValue` construction inside `build` succeeds,
so `build` returns a value for every part list — the `unwrap` is
unreachable as an error. -/
theorem build_total_C10 (u : String) (ps : List Part)
    (hu : isUuidString u = true) :
    build ⟨u, ps⟩ = some (("content-type", "multipart/form-data; boundary=" ++ u),
        bodyBytes ⟨u, ps⟩)
    ∧ (build ⟨u, ps⟩).isSome = true := by
  have h := build_eq_of_uuid ⟨u, ps⟩ hu
  exact ⟨h, by rw [h]; rfl⟩

set_option maxRecDepth 40000 in
/-- C10 witness: `build` succeeds on a hostile part (quotes in name and
filename, CRLF in the content type, delimiter bytes in the content) under a
concrete UUID boundary. -/
theorem build_total_witness_C10 :
    build ⟨sampleUuid, [samplePartNasty]⟩
      = some (("content-type", "multipart/form-data; boundary=" ++ sampleUuid),
        bodyBytes ⟨sampleUuid, [samplePartNasty]⟩)
    ∧ (build ⟨sampleUuid, [samplePartNasty]⟩).isSome = true :=
  build_total_C10 sampleUuid [samplePartNasty] (by decide)

end MultipartTest
